import Mathlib

/-!
Shallow embedding of the core state logic of the analytics-dashboard
application (src/index.tsx, two application variants in one file).

The stateful React component is modelled as explicit state passing: every
piece of useState state becomes a field of a state structure, and every
async operation is decomposed at its await points into a step function over
that structure, so that the visible states of an execution are exactly the
states between the synchronous blocks of the source.  JavaScript strings
are modelled as Lean String; the JS number counters of the API payloads are
modelled as Nat (the code never does arithmetic on them).  JS string
helpers that the code relies on (trim, toLowerCase, includes) are modelled
directly on the character list so that they evaluate in the kernel.
-/

/-! ## JS string primitives -/

/-- Model of JavaScript String.prototype.trim: strip leading and trailing
whitespace. -/
def jsTrim (s : String) : String :=
  ⟨(s.data.dropWhile Char.isWhitespace).reverse.dropWhile Char.isWhitespace |>.reverse⟩

/-- Model of JavaScript String.prototype.toLowerCase (ASCII range, which is
all the country names and search text use). -/
def jsToLower (s : String) : String := ⟨s.data.map Char.toLower⟩

/-- Helper for substring containment: does the needle occur as a prefix of
some suffix of the haystack? -/
def includesAux (needle : List Char) : List Char → Bool
  | [] => needle.isEmpty
  | c :: rest => needle.isPrefixOf (c :: rest) || includesAux needle rest

/-- Model of JavaScript String.prototype.includes: substring containment. -/
def jsIncludes (hay needle : String) : Bool := includesAux needle.data hay.data

/-- Plain left-to-right concatenation of a list of chunk texts. -/
def joinChunks : List String → String
  | [] => ""
  | c :: cs => c ++ joinChunks cs

/-! ## Data model (src/index.tsx lines 43-71, 127-149) -/

/-- GlobalStats interface (lines 43-53). -/
structure GlobalStats where
  cases : Nat
  todayCases : Nat
  deaths : Nat
  todayDeaths : Nat
  recovered : Nat
  todayRecovered : Nat
  active : Nat
  population : Nat
  updated : Nat
deriving DecidableEq, Repr

/-- Nested countryInfo object of the CountryData interface (line 57). -/
structure CountryInfo where
  iso2 : String
  flag : String
deriving DecidableEq, Repr

/-- CountryData interface (lines 55-64). -/
structure CountryData where
  country : String
  countryInfo : CountryInfo
  cases : Nat
  deaths : Nat
  recovered : Nat
  active : Nat
  continent : String
  population : Nat
deriving DecidableEq, Repr

/-- Historical series payload: three date-keyed maps, modelled as ordered
association lists (lines 789-793 of the second variant; the first variant
types it as any with the same shape). -/
structure HistoricalData where
  cases : List (String × Nat)
  deaths : List (String × Nat)
  recovered : List (String × Nat)
deriving DecidableEq, Repr

/-- One entry of the notifications list (line 123). -/
structure Notification where
  id : Nat
  text : String
deriving DecidableEq, Repr

/-- The config settings object (lines 127-132). -/
structure Config where
  theme : String
  refreshRate : Nat
  aiModel : String
  notifications : Bool
deriving DecidableEq, Repr

/-- Initial config value (lines 127-132). -/
def defaultConfig : Config :=
  { theme := "Midnight Deep", refreshRate := 30, aiModel := "Gemini 3 Flash",
    notifications := true }

/-- The config after the Alert Protocol toggle has been switched off
(line 614). -/
def quietConfig : Config := { defaultConfig with notifications := false }

/-! ## Exporter (exportToCSV, lines 81-93)

The modelled value is the CSV payload built on lines 83-85: the header row
from the first record's keys joined with commas, a newline, and one row per
record with the values joined with commas.  A record is an ordered list of
key/value pairs (JS object insertion order); values are already strings.
The code then prefixes the data-URI scheme and triggers the download, which
is outside the serialized payload. -/

/-- Model of exportToCSV's payload construction (lines 82-85): returns none
for an empty collection (line 82), otherwise the header line followed by
the raw comma-joined rows.  No quoting or escaping of any kind is applied
to the values. -/
def exportToCSV (data : List (List (String × String))) : Option String :=
  match data with
  | [] => none
  | first :: _ =>
    let headers := String.intercalate "," (first.map Prod.fst)
    let rows := String.intercalate "\n"
      (data.map fun obj => String.intercalate "," (obj.map Prod.snd))
    some (headers ++ "\n" ++ rows)

/-! ## Notification queue (addNotification, lines 151-158)

addNotification guards on config.notifications, appends an entry with id =
Date.now(), and schedules a removal timer of 5000 ms for that id; the timer
callback filters the list by id.  The returned pair is the new list and the
scheduled timer (id, delay), with none when nothing was scheduled. -/

/-- Model of addNotification (lines 151-158): now stands for Date.now(). -/
def addNotification (cfg : Config) (now : Nat) (text : String)
    (ns : List Notification) : List Notification × Option (Nat × Nat) :=
  if cfg.notifications then (ns ++ [{ id := now, text := text }], some (now, 5000))
  else (ns, none)

/-- Model of the removal-timer callback (lines 155-157): drop every entry
with the captured id. -/
def notificationExpire (id : Nat) (ns : List Notification) : List Notification :=
  ns.filter fun n => n.id != id

/-- Events acting on the notification list: a push (addNotification call)
with its Date.now() id and text, or the firing of a removal timer. -/
inductive NEvent
  | push (id : Nat) (text : String)
  | expire (id : Nat)
deriving DecidableEq, Repr

/-- One notification event applied to the list, under a fixed config. -/
def queueStep (cfg : Config) (ns : List Notification) : NEvent → List Notification
  | .push id t => (addNotification cfg id t ns).1
  | .expire id => notificationExpire id ns

/-- The notification list after a sequence of events, starting empty
(line 123). -/
def runQueue (cfg : Config) (evs : List NEvent) : List Notification :=
  evs.foldl (queueStep cfg) []

/-! ## DataStore (fetchData, lines 160-184)

fetchData synchronously sets loading and systemStatus, then awaits the
three fetches and the three json() calls; only after all six awaits have
succeeded does one synchronous block replace the three data pieces, set the
status and push a notification; any rejection lands in the catch block,
which touches only status and notifications.  The visible states of an
execution are therefore the state after the synchronous prologue (shared by
every suspension point, since nothing is mutated between the awaits) and
the final state.  The second variant (lines 884-908) has the same shape
with an added response.ok check, which only adds one more way to reach the
failure branch. -/

/-- Dashboard data/state fields touched by fetchData and addNotification
(lines 123-139). -/
structure DashState where
  globalStats : Option GlobalStats
  countries : List CountryData
  historical : Option HistoricalData
  loading : Bool
  systemStatus : String
  notifications : List Notification
  config : Config
deriving DecidableEq, Repr

/-- Outcome of the six awaited steps of fetchData: either all three
payloads were fetched and parsed, or some await rejected (the catch block
does not distinguish which). -/
inductive FetchOutcome
  | success (g : GlobalStats) (c : List CountryData) (h : HistoricalData)
  | failure
deriving DecidableEq, Repr

/-- Synchronous prologue of fetchData (lines 161-162). -/
def fetchDataBegin (s : DashState) : DashState :=
  { s with loading := true, systemStatus := "Syncing" }

/-- Final synchronous block of fetchData: the success block (lines 173-177),
or the catch block (lines 179-180), each followed by the finally block
(line 182).  now stands for Date.now() inside addNotification. -/
def fetchDataFinish (s : DashState) (now : Nat) : FetchOutcome → DashState
  | .success g c h =>
    { s with globalStats := some g, countries := c, historical := some h,
             systemStatus := "Active",
             notifications :=
               (addNotification s.config now "Quantum Data Link Established." s.notifications).1,
             loading := false }
  | .failure =>
    { s with systemStatus := "Error",
             notifications :=
               (addNotification s.config now "Critical: API Cluster Unresponsive." s.notifications).1,
             loading := false }

/-- Whole fetchData execution as a state transformer. -/
def fetchData (s : DashState) (now : Nat) (o : FetchOutcome) : DashState :=
  fetchDataFinish (fetchDataBegin s) now o

/-- The visible states of one fetchData execution, in order: the state
held at every suspension point (no data field is mutated between the
awaits), then the final state. -/
def fetchDataStates (s : DashState) (now : Nat) (o : FetchOutcome) : List DashState :=
  [fetchDataBegin s, fetchData s now o]

/-- The three-piece data snapshot of a dashboard state. -/
def snapshotOf (s : DashState) :
    Option GlobalStats × List CountryData × Option HistoricalData :=
  (s.globalStats, s.countries, s.historical)

/-! ## Scheduler (refresh interval effect, lines 186-192)

The effect arms one interval timer and returns a cleanup that clears it;
React runs the cleanup before re-running the effect, and on unmount.  A
run of the effect is therefore: clear the previously held timer, arm a
fresh one with the new period; a stop (unmount) just clears.  Timers are
given fresh ids so that clearing is by identity, as with JS interval
handles; armed holds the timers the JS runtime would still fire. -/

/-- Scheduler state: the armed interval timers as (id, period) pairs, the
timer id held by the current effect closure, and a fresh-id counter. -/
structure SchedState where
  armed : List (Nat × Nat)
  current : Option Nat
  nextId : Nat
deriving DecidableEq, Repr

/-- Reconfigurations of the scheduler: an effect run with a (new) period,
or a teardown. -/
inductive SchedEvent
  | start (p : Nat)
  | stop
deriving DecidableEq, Repr

/-- Model of clearInterval on the held handle: the timer with that id can
never fire again. -/
def clearHeld (held : Option Nat) (armed : List (Nat × Nat)) : List (Nat × Nat) :=
  match held with
  | none => armed
  | some id => armed.filter fun t => t.1 != id

/-- One scheduler reconfiguration: a start clears the held timer first
(React cleanup), then arms a fresh interval with the new period (line 188);
a stop only clears (line 191). -/
def schedStep (s : SchedState) : SchedEvent → SchedState
  | .start p =>
    { armed := clearHeld s.current s.armed ++ [(s.nextId, p)],
      current := some s.nextId, nextId := s.nextId + 1 }
  | .stop =>
    { armed := clearHeld s.current s.armed, current := none, nextId := s.nextId }

/-- Initial scheduler state: nothing armed. -/
def schedInit : SchedState := { armed := [], current := none, nextId := 0 }

/-- Scheduler state after a sequence of reconfigurations. -/
def runSched (evs : List SchedEvent) : SchedState :=
  evs.foldl schedStep schedInit

/-- Period tracking alongside the scheduler state: a start records its
period, a stop clears it. -/
def periodStep (_po : Option Nat) : SchedEvent → Option Nat
  | .start p => some p
  | .stop => none

/-- The period requested by the most recent start not followed by a stop. -/
def activePeriod (evs : List SchedEvent) : Option Nat :=
  evs.foldl periodStep none

/-- Coupled invariant of the scheduler: the armed timers are exactly the
one held by the current effect, carrying the most recent period. -/
def SchedInv (s : SchedState) (po : Option Nat) : Prop :=
  match s.current with
  | none => s.armed = []
  | some i => ∃ p, po = some p ∧ s.armed = [(i, p)]

/-! ## TableViewModel (filteredAndSortedCountries lines 914-923, toggleSort
lines 963-970, second variant)

The useMemo filters by case-insensitive substring on the country name,
sorts by the selected numeric field with the comparator
(a, b) => desc ? valB - valA : valA - valB, and caps at 100 rows.
JavaScript Array.prototype.sort is a stable sort, so it is modelled as the
stable insertionSort under the comparator's ordering. -/

/-- The numeric sort keys toggleSort is invoked with (lines 1303-1318). -/
inductive SortKey
  | cases
  | active
  | deaths
  | recovered
deriving DecidableEq, Repr

/-- Sort direction (line 877). -/
inductive SortOrder
  | asc
  | desc
deriving DecidableEq, Repr

/-- Field selection by sort key. -/
def keyOf : SortKey → CountryData → Nat
  | .cases, c => c.cases
  | .active, c => c.active
  | .deaths, c => c.deaths
  | .recovered, c => c.recovered

/-- Order induced by the sort comparator of lines 917-921: a stays before b
when the comparator is non-positive. -/
def countryLe (k : SortKey) (o : SortOrder) (a b : CountryData) : Bool :=
  match o with
  | .desc => keyOf k b ≤ keyOf k a
  | .asc => keyOf k a ≤ keyOf k b

/-- The comparator order as a decidable relation for the stable sort. -/
def sortRel (k : SortKey) (o : SortOrder) (a b : CountryData) : Prop :=
  countryLe k o a b = true

instance (k : SortKey) (o : SortOrder) : DecidableRel (sortRel k o) :=
  fun _ _ => inferInstanceAs (Decidable (_ = true))

/-- Filter predicate of line 916: case-insensitive substring match of the
search term in the country name. -/
def matchesSearch (searchTerm : String) (c : CountryData) : Bool :=
  jsIncludes (jsToLower c.country) (jsToLower searchTerm)

/-- Model of the filteredAndSortedCountries useMemo (lines 914-923):
filter, stable sort by the chosen key and direction, cap at 100. -/
def filteredAndSortedCountries (countries : List CountryData) (searchTerm : String)
    (k : SortKey) (o : SortOrder) : List CountryData :=
  (List.insertionSort (sortRel k o) (countries.filter (matchesSearch searchTerm))).take 100

/-- The view state the table derives from (lines 871-877). -/
structure ViewState where
  countries : List CountryData
  searchTerm : String
  sortKey : SortKey
  sortOrder : SortOrder
deriving DecidableEq, Repr

/-- Model of toggleSort (lines 963-970): clicking the active key flips the
direction, clicking a new key selects it with descending direction; nothing
else is touched. -/
def toggleSort (key : SortKey) (s : ViewState) : ViewState :=
  if s.sortKey = key then
    { s with sortOrder := if s.sortOrder = .desc then .asc else .desc }
  else
    { s with sortKey := key, sortOrder := .desc }

/-! ## ChatSession (sendMessage, lines 230-270)

sendMessage is decomposed at its await points into events on the chat
state.  The phase field is the executor position of the in-flight call:
idle (no call past the guard), opening (user message appended, awaiting
initChat/sendMessageStream), streaming (placeholder appended, consuming
chunks).  fullText mirrors the local accumulator of line 243.

Events and their source blocks:
* setInput: the input onChange (line 699).
* callSend: lines 231-236; returns unchanged when the trimmed input is
  empty or isAiTyping is set, otherwise appends the user message, clears
  the input, sets the busy flag.
* streamOpened: lines 243-244; resets the accumulator and appends the
  streaming placeholder.
* chunkArrive: lines 246-256; extends the accumulator with the chunk text
  and writes it into the last message if its role is model.
* streamComplete: lines 258-263 plus the finally block; clears the
  streaming flag of the last message if its role is model, clears busy.
* transportError: lines 265-269 plus the finally block; appends a fresh
  fallback message (with no streaming field) and clears busy.  It applies
  only while a call is in flight. -/

/-- Message roles (line 67). -/
inductive Role
  | user
  | model
deriving DecidableEq, Repr

/-- ChatMessage interface (lines 66-71); isStreaming is an optional field,
absent on user and fallback messages. -/
structure ChatMessage where
  role : Role
  text : String
  timestamp : Nat
  isStreaming : Option Bool
deriving DecidableEq, Repr

/-- Executor position of the in-flight sendMessage call. -/
inductive Phase
  | idle
  | opening
  | streaming
deriving DecidableEq, Repr

/-- Chat-related state (lines 142-144) plus the executor bookkeeping. -/
structure ChatState where
  chatMessages : List ChatMessage
  chatInput : String
  isAiTyping : Bool
  phase : Phase
  fullText : String
deriving DecidableEq, Repr

/-- The fixed fallback text of the catch block (line 266). -/
def fallbackText : String := "Neural link failed. Attempting reconnection..."

/-- Events of the chat session. -/
inductive CEvent
  | setInput (t : String)
  | callSend (now : Nat)
  | streamOpened (now : Nat)
  | chunkArrive (t : String)
  | streamComplete
  | transportError (now : Nat)
deriving DecidableEq, Repr

/-- Apply a function to the last element of a list, as the functional
updates of lines 248-255 and 258-263 do. -/
def mapLast (f : α → α) : List α → List α
  | [] => []
  | [a] => [f a]
  | a :: b :: rest => a :: mapLast f (b :: rest)

/-- One chat event applied to the state (see the block comment above for
the source correspondence). -/
def chatStep (s : ChatState) : CEvent → ChatState
  | .setInput t => { s with chatInput := t }
  | .callSend now =>
    if jsTrim s.chatInput = "" ∨ s.isAiTyping then s
    else
      { s with
        chatMessages := s.chatMessages ++
          [{ role := .user, text := s.chatInput, timestamp := now, isStreaming := none }],
        chatInput := "", isAiTyping := true, phase := .opening }
  | .streamOpened now =>
    if s.phase = .opening then
      { s with fullText := "",
               chatMessages := s.chatMessages ++
                 [{ role := .model, text := "", timestamp := now, isStreaming := some true }],
               phase := .streaming }
    else s
  | .chunkArrive t =>
    if s.phase = .streaming then
      let ft := s.fullText ++ t
      { s with fullText := ft,
               chatMessages := mapLast
                 (fun m => if m.role = .model then { m with text := ft } else m)
                 s.chatMessages }
    else s
  | .streamComplete =>
    if s.phase = .streaming then
      { s with chatMessages := mapLast
                 (fun m => if m.role = .model then { m with isStreaming := some false } else m)
                 s.chatMessages,
               isAiTyping := false, phase := .idle }
    else s
  | .transportError now =>
    if s.phase = .idle then s
    else
      { s with chatMessages := s.chatMessages ++
                 [{ role := .model, text := fallbackText, timestamp := now, isStreaming := none }],
               isAiTyping := false, phase := .idle }

/-- Chat state after a sequence of events from a given state. -/
def runChatFrom (s : ChatState) (evs : List CEvent) : ChatState :=
  evs.foldl chatStep s

/-- Initial chat state (lines 142-144). -/
def chatInit : ChatState :=
  { chatMessages := [], chatInput := "", isAiTyping := false, phase := .idle,
    fullText := "" }

/-- Chat state after a sequence of events from the initial state. -/
def runChat (evs : List CEvent) : ChatState := runChatFrom chatInit evs

/-- Decidable statement of the streaming invariant on a message log: every
message except possibly the last has its streaming flag off, hence at most
one message is streaming and if one is it is the last. -/
def streamingInvariant (l : List ChatMessage) : Bool :=
  l.dropLast.all fun m => m.isStreaming != some true

/-- No message of the log is streaming. -/
def noStreaming (l : List ChatMessage) : Prop :=
  ∀ m ∈ l, m.isStreaming ≠ some true

/-- Inductive invariant of the chat state machine tying the phase to the
log shape: outside a streaming phase no message is streaming; while
streaming, the log ends with the placeholder carrying the accumulator and
everything before it is non-streaming, and the busy flag is set (which is
what keeps a second send out). -/
def ChatInv (s : ChatState) : Prop :=
  match s.phase with
  | .idle => noStreaming s.chatMessages
  | .opening => s.isAiTyping = true ∧ noStreaming s.chatMessages
  | .streaming => s.isAiTyping = true ∧
      ∃ ms n, s.chatMessages =
          ms ++ [{ role := .model, text := s.fullText, timestamp := n, isStreaming := some true }] ∧
        noStreaming ms

/-- A sequence of chat events is mid-stream-error-free from a state when no
transportError occurs while the phase is streaming. -/
def midStreamSafe : ChatState → List CEvent → Bool
  | _, [] => true
  | s, e :: es =>
    (match e, s.phase with
     | .transportError _, .streaming => false
     | _, _ => true) && midStreamSafe (chatStep s e) es

/-! ## Concrete values used by the witnesses and counterexamples -/

/-- Sample global summary. -/
def gsA : GlobalStats :=
  { cases := 100, todayCases := 1, deaths := 20, todayDeaths := 2,
    recovered := 50, todayRecovered := 3, active := 30, population := 1000,
    updated := 11 }

/-- Second, distinct sample global summary. -/
def gsB : GlobalStats :=
  { cases := 200, todayCases := 4, deaths := 40, todayDeaths := 5,
    recovered := 90, todayRecovered := 6, active := 70, population := 2000,
    updated := 12 }

/-- Sample historical payload. -/
def histA : HistoricalData :=
  { cases := [("1/1/24", 5)], deaths := [("1/1/24", 1)], recovered := [("1/1/24", 2)] }

/-- A dashboard state with a refresh outstanding (loading set). -/
def busyDash : DashState :=
  { globalStats := some gsA, countries := [], historical := none,
    loading := true, systemStatus := "Syncing", notifications := [],
    config := defaultConfig }

/-- An idle dashboard state. -/
def idleDash : DashState :=
  { globalStats := some gsA, countries := [], historical := some histA,
    loading := false, systemStatus := "Active", notifications := [],
    config := defaultConfig }

/-- Sample country rows for the table view-model. -/
def demoCountries : List CountryData :=
  [{ country := "France", countryInfo := { iso2 := "FR", flag := "fr.png" },
     cases := 30, deaths := 3, recovered := 20, active := 7,
     continent := "Europe", population := 67 },
   { country := "Germany", countryInfo := { iso2 := "DE", flag := "de.png" },
     cases := 40, deaths := 4, recovered := 30, active := 6,
     continent := "Europe", population := 83 },
   { country := "Francistan", countryInfo := { iso2 := "FS", flag := "fs.png" },
     cases := 10, deaths := 1, recovered := 5, active := 4,
     continent := "Asia", population := 9 }]

/-- Event trace of one send exchange whose transport errors after the chunk
with text "He" arrived. -/
def errorTrace : List CEvent :=
  [.setInput "hi", .callSend 0, .streamOpened 1, .chunkArrive "He", .transportError 2]

/-- Event trace of one send exchange whose transport errors after the chunk
with text "Hel" arrived. -/
def errorTrace2 : List CEvent :=
  [.setInput "hi", .callSend 0, .streamOpened 1, .chunkArrive "Hel", .transportError 2]

/-- The events of one complete send() exchange delivering the given chunks
in order and then the end-of-stream marker. -/
def sendSuccessSeq (cs : List String) (n1 n2 : Nat) : List CEvent :=
  [.callSend n1, .streamOpened n2] ++ cs.map .chunkArrive ++ [.streamComplete]

/-- The events of one send() exchange delivering the given chunks in order
and then erroring mid-stream. -/
def sendErrorSeq (cs : List String) (n1 n2 n3 : Nat) : List CEvent :=
  [.callSend n1, .streamOpened n2] ++ cs.map .chunkArrive ++ [.transportError n3]

/-! ## Theorems -/

/-! ### C1: all-or-nothing snapshot replacement -/

/-- C1: in every visible state of a fetchData execution the three-piece
snapshot (global summary, country list, historical series) is either the
previous triple unchanged or, only in the final state of a fully successful
run, the freshly fetched triple; no state mixes old and new pieces. -/
theorem fetchData_snapshot_atomic (s : DashState) (now : Nat) (o : FetchOutcome)
    (s' : DashState) (h : s' ∈ fetchDataStates s now o) :
    snapshotOf s' = snapshotOf s ∨
      ∃ g c hist, o = .success g c hist ∧ snapshotOf s' = (some g, c, some hist) := by
  simp only [fetchDataStates, List.mem_cons, List.not_mem_nil, or_false] at h
  rcases h with h | h
  · subst h; exact Or.inl rfl
  · subst h
    cases o with
    | success g c hist => exact Or.inr ⟨g, c, hist, rfl, rfl⟩
    | failure => exact Or.inl rfl

/-- Witness for C1: the suspension-point state of a failing refresh keeps
the previous snapshot. -/
theorem fetchData_snapshot_atomic_witness :
    snapshotOf (fetchDataBegin idleDash) = snapshotOf idleDash ∨
      ∃ g c hist, FetchOutcome.failure = FetchOutcome.success g c hist ∧
        snapshotOf (fetchDataBegin idleDash) = (some g, c, some hist) :=
  fetchData_snapshot_atomic idleDash 0 .failure (fetchDataBegin idleDash)
    (List.mem_cons_self _ _)

/-! ### C4: busy rejection -/

/-- C4: evaluation of fetchData at a state with a refresh already
outstanding (loading set).  The call is not rejected: it proceeds, mutates
the state and replaces the snapshot, because fetchData has no busy guard
(lines 160-184 never test loading before proceeding).  The send() half of
the claim does hold (see the C3/C7 machinery: callSend with isAiTyping set
returns the state unchanged), but the refresh half fails. -/
theorem fetchData_busy_not_rejected :
    busyDash.loading = true ∧
    (fetchData busyDash 7 (.success gsB [] histA)).globalStats = some gsB ∧
    fetchData busyDash 7 (.success gsB [] histA) ≠ busyDash := by
  refine ⟨rfl, rfl, ?_⟩
  intro h
  have := congrArg DashState.globalStats h
  simp [fetchData, fetchDataFinish, fetchDataBegin, busyDash, gsA, gsB] at this

/-! ### C5: CSV quoting -/

/-- C5: evaluation of the exporter at the record of the claim.  The code
joins raw values with commas (lines 83-84), so the row for a value
containing the delimiter is emitted unquoted: the payload is a,b then
1,2,x, not the required a,b then "1,2",x. -/
theorem exportToCSV_unquoted :
    exportToCSV [[("a", "1,2"), ("b", "x")]] = some "a,b\n1,2,x" ∧
    "a,b\n1,2,x" ≠ "a,b\n\"1,2\",x" := by
  exact ⟨rfl, by decide⟩

/-! ### C6: notification queue bound -/

/-- Helper for C6: folding n pushes over the queue adds exactly n entries
when notifications are enabled. -/
theorem foldl_push_length (cfg : Config) (h : cfg.notifications = true) :
    ∀ (n : Nat) (ns : List Notification),
      (List.foldl (queueStep cfg) ns (List.replicate n (NEvent.push 0 "x"))).length
        = ns.length + n := by
  intro n
  induction n with
  | zero => intro ns; simp
  | succ k ih =>
    intro ns
    rw [List.replicate_succ, List.foldl_cons, ih]
    simp [queueStep, addNotification, h]
    omega

/-- C6 counterexample: the notification queue has no size cap at all; for
every candidate bound there is a push sequence whose resulting queue is
longer, since addNotification (lines 151-158) appends unconditionally and
never evicts. -/
theorem notification_cap_counterexample :
    ¬ ∃ M : Nat, ∀ evs : List NEvent, (runQueue defaultConfig evs).length ≤ M := by
  rintro ⟨M, h⟩
  have hle := h (List.replicate (M + 1) (NEvent.push 0 "x"))
  rw [runQueue, foldl_push_length defaultConfig rfl] at hle
  omega

/-- C6 amended: the queue is unbounded; a push with notifications enabled
appends the new entry at the tail and removes nothing (in particular the
oldest entry is never evicted), and entries leave the queue only through
the per-entry removal timer, which filters out the pushed id. -/
theorem notification_no_eviction (cfg : Config) (evs : List NEvent) (id : Nat)
    (t : String) (h : cfg.notifications = true) :
    runQueue cfg (evs ++ [.push id t]) = runQueue cfg evs ++ [{ id := id, text := t }] ∧
    runQueue cfg (evs ++ [.expire id]) =
      (runQueue cfg evs).filter (fun n => n.id != id) := by
  constructor <;>
    simp [runQueue, List.foldl_append, queueStep, addNotification, notificationExpire, h]

/-- Witness for C6's amended statement: a second push lands at the tail of
the queue with the first entry still present. -/
theorem notification_no_eviction_witness :
    runQueue defaultConfig ([NEvent.push 1 "a"] ++ [NEvent.push 2 "b"]) =
      runQueue defaultConfig [NEvent.push 1 "a"] ++ [{ id := 2, text := "b" }] :=
  (notification_no_eviction defaultConfig [NEvent.push 1 "a"] 2 "b" rfl).1

/-! ### C9: scheduler exclusivity -/

/-- Helper for C9: one reconfiguration preserves the coupled invariant,
because the effect clears its held timer before arming the fresh one. -/
theorem schedStep_inv (s : SchedState) (po : Option Nat) (e : SchedEvent)
    (h : SchedInv s po) : SchedInv (schedStep s e) (periodStep po e) := by
  have harmed : clearHeld s.current s.armed = [] := by
    cases hc : s.current with
    | none => simp [SchedInv, hc] at h; simp [clearHeld, h]
    | some i =>
      simp [SchedInv, hc] at h
      obtain ⟨p, _, harm⟩ := h
      simp [clearHeld, harm]
  cases e with
  | start p => exact ⟨p, rfl, by simp [schedStep, harmed]⟩
  | stop => simp [SchedInv, schedStep, harmed]

/-- Helper for C9: the invariant holds in every reachable scheduler
state. -/
theorem runSched_inv (evs : List SchedEvent) :
    SchedInv (runSched evs) (activePeriod evs) := by
  suffices hgen : ∀ (l : List SchedEvent) (s : SchedState) (po : Option Nat),
      SchedInv s po → SchedInv (l.foldl schedStep s) (l.foldl periodStep po) by
    exact hgen evs schedInit none rfl
  intro l
  induction l with
  | nil => intro s po h; exact h
  | cons e es ih => intro s po h; exact ih _ _ (schedStep_inv s po e h)

/-- C9: after any sequence of scheduler reconfigurations at most one
interval timer is armed, and any timer still able to fire carries the
period of the most recent start — so restarting never leaves a stale timer
and no firing happens at a discarded cadence. -/
theorem scheduler_single_active (evs : List SchedEvent) :
    (runSched evs).armed.length ≤ 1 ∧
    ∀ id p, (id, p) ∈ (runSched evs).armed → activePeriod evs = some p := by
  have h := runSched_inv evs
  cases hc : (runSched evs).current with
  | none =>
    simp [SchedInv, hc] at h
    simp [h]
  | some i =>
    simp [SchedInv, hc] at h
    obtain ⟨p0, hpo, harm⟩ := h
    refine ⟨by simp [harm], ?_⟩
    intro id p hmem
    rw [harm] at hmem
    simp at hmem
    rw [hpo, hmem.2]

/-- Witness for C9: start(10) immediately followed by start(5) leaves
exactly the period-5 timer armed; the period-10 timer is gone. -/
theorem scheduler_single_active_witness :
    activePeriod [SchedEvent.start 10, SchedEvent.start 5] = some 5 ∧
    (runSched [SchedEvent.start 10, SchedEvent.start 5]).armed = [(1, 5)] :=
  ⟨(scheduler_single_active [SchedEvent.start 10, SchedEvent.start 5]).2 1 5 (by decide),
   by decide⟩

/-! ### C10: disabled notifications are a silent no-op -/

/-- C10: with the notifications setting off, addNotification returns the
list unchanged and schedules no removal timer and no id (lines 151-152
return before any effect); consequently a refresh, successful or failed,
leaves the notification list untouched. -/
theorem addNotification_disabled_silent :
    (∀ cfg now t ns, cfg.notifications = false →
      addNotification cfg now t ns = (ns, none)) ∧
    (∀ s now o, s.config.notifications = false →
      (fetchData s now o).notifications = s.notifications) := by
  constructor
  · intro cfg now t ns h
    simp [addNotification, h]
  · intro s now o h
    cases o <;> simp [fetchData, fetchDataFinish, fetchDataBegin, addNotification, h]

/-- Witness for C10: a concrete disabled push produces nothing. -/
theorem addNotification_disabled_silent_witness :
    addNotification quietConfig 3 "Quantum Data Link Established." [] = ([], none) :=
  addNotification_disabled_silent.1 quietConfig 3 "Quantum Data Link Established." [] rfl

/-! ### Chat session machinery shared by C2, C3 and C7 -/

/-- Empty string is a left identity of string concatenation. -/
theorem strEmpty_append (s : String) : "" ++ s = s := rfl

/-- Helper: the functional updates of the chunk and completion handlers
touch exactly the last element of the log. -/
theorem mapLast_concat (f : α → α) : ∀ (l : List α) (a : α), mapLast f (l ++ [a]) = l ++ [f a]
  | [], _ => rfl
  | [_], _ => rfl
  | x :: y :: rest, a => by
    have ih : mapLast f (y :: (rest ++ [a])) = y :: (rest ++ [f a]) :=
      mapLast_concat f (y :: rest) a
    show x :: mapLast f (y :: (rest ++ [a])) = x :: (y :: (rest ++ [f a]))
    rw [ih]

/-- Helper: the guarded prologue of sendMessage (lines 231-244) from a
non-busy state with non-blank input appends the user message and the
streaming placeholder, clears the input and sets the busy flag. -/
theorem send_open (s : ChatState) (n1 n2 : Nat) (h1 : s.isAiTyping = false)
    (h2 : jsTrim s.chatInput ≠ "") :
    chatStep (chatStep s (.callSend n1)) (.streamOpened n2) =
      { chatMessages := (s.chatMessages ++
          [{ role := .user, text := s.chatInput, timestamp := n1, isStreaming := none }]) ++
          [{ role := .model, text := "", timestamp := n2, isStreaming := some true }],
        chatInput := "", isAiTyping := true, phase := .streaming, fullText := "" } := by
  simp [chatStep, h1, h2]

/-- Helper: consuming a list of chunks while streaming extends both the
accumulator and the trailing placeholder by the concatenation of the chunk
texts, and touches nothing else. -/
theorem chunks_fold :
    ∀ (cs : List String) (ms : List ChatMessage) (i : String) (ty : Bool) (t : String) (n : Nat),
      runChatFrom
        { chatMessages := ms ++
            [{ role := .model, text := t, timestamp := n, isStreaming := some true }],
          chatInput := i, isAiTyping := ty, phase := .streaming, fullText := t }
        (cs.map CEvent.chunkArrive) =
        { chatMessages := ms ++
            [{ role := .model, text := t ++ joinChunks cs, timestamp := n, isStreaming := some true }],
          chatInput := i, isAiTyping := ty, phase := .streaming, fullText := t ++ joinChunks cs }
  | [], ms, i, ty, t, n => by
    simp [runChatFrom, joinChunks, String.append_empty]
  | c :: cs, ms, i, ty, t, n => by
    have ih := chunks_fold cs ms i ty (t ++ c) n
    simp only [joinChunks, List.map_cons, runChatFrom, List.foldl_cons] at ih ⊢
    simp only [← String.append_assoc]
    rw [← ih]
    congr 1
    simp [chatStep, mapLast_concat]

/-- Helper: the end-of-stream handler (lines 258-263 plus the finally
block) freezes the trailing placeholder and clears the busy flag. -/
theorem complete_step (ms : List ChatMessage) (i t : String) (n : Nat) (ty : Bool) :
    chatStep
      { chatMessages := ms ++
          [{ role := .model, text := t, timestamp := n, isStreaming := some true }],
        chatInput := i, isAiTyping := ty, phase := .streaming, fullText := t }
      .streamComplete =
      { chatMessages := ms ++
          [{ role := .model, text := t, timestamp := n, isStreaming := some false }],
        chatInput := i, isAiTyping := false, phase := .idle, fullText := t } := by
  simp [chatStep, mapLast_concat]

/-- Helper: the catch handler (lines 265-269 plus the finally block) while
streaming appends the fallback message and clears the busy flag, leaving
the rest of the log untouched. -/
theorem error_step (ms : List ChatMessage) (i t : String) (ty : Bool) (now : Nat) :
    chatStep
      { chatMessages := ms, chatInput := i, isAiTyping := ty, phase := .streaming,
        fullText := t }
      (.transportError now) =
      { chatMessages := ms ++
          [{ role := .model, text := fallbackText, timestamp := now, isStreaming := none }],
        chatInput := i, isAiTyping := false, phase := .idle, fullText := t } := by
  simp [chatStep]

/-! ### C7: chunk accumulation -/

/-- C7: a send() exchange from a non-busy state with non-blank input that
receives the chunks in order and then the end-of-stream marker finalizes
the assistant message with exactly the concatenation of the chunk texts and
streaming off (with zero chunks this is the empty finalized message), and
after any prefix of the chunks the trailing assistant message holds exactly
the concatenation of that prefix — each chunk extends the text and never
shrinks or replaces it. -/
theorem sendMessage_chunks_concat (s : ChatState) (cs : List String) (n1 n2 : Nat)
    (h1 : s.isAiTyping = false) (h2 : jsTrim s.chatInput ≠ "") :
    runChatFrom s (sendSuccessSeq cs n1 n2) =
      { chatMessages := s.chatMessages ++
          [{ role := .user, text := s.chatInput, timestamp := n1, isStreaming := none },
           { role := .model, text := joinChunks cs, timestamp := n2, isStreaming := some false }],
        chatInput := "", isAiTyping := false, phase := .idle, fullText := joinChunks cs } ∧
    ∀ i, i ≤ cs.length →
      (runChatFrom s ([CEvent.callSend n1, CEvent.streamOpened n2] ++
          (cs.take i).map CEvent.chunkArrive)).chatMessages.getLast?
        = some { role := .model, text := joinChunks (cs.take i), timestamp := n2,
                 isStreaming := some true } := by
  have hopen := send_open s n1 n2 h1 h2
  constructor
  · have hsplit : runChatFrom s (sendSuccessSeq cs n1 n2)
        = chatStep (runChatFrom (chatStep (chatStep s (.callSend n1)) (.streamOpened n2))
            (cs.map CEvent.chunkArrive)) .streamComplete := by
      simp [sendSuccessSeq, runChatFrom, List.foldl_append]
    rw [hsplit, hopen, chunks_fold, complete_step]
    simp [strEmpty_append]
  · intro i _hi
    have hsplit : runChatFrom s ([CEvent.callSend n1, CEvent.streamOpened n2] ++
          (cs.take i).map CEvent.chunkArrive)
        = runChatFrom (chatStep (chatStep s (.callSend n1)) (.streamOpened n2))
            ((cs.take i).map CEvent.chunkArrive) := rfl
    rw [hsplit, hopen, chunks_fold]
    simp [strEmpty_append]

/-- Witness for C7: the chunks Hel and lo yield the finalized text Hello,
and a zero-chunk stream yields the empty finalized message. -/
theorem sendMessage_chunks_concat_witness :
    runChatFrom { chatMessages := [], chatInput := "hi", isAiTyping := false,
                  phase := .idle, fullText := "" } (sendSuccessSeq ["Hel", "lo"] 0 1) =
      { chatMessages :=
          [{ role := .user, text := "hi", timestamp := 0, isStreaming := none },
           { role := .model, text := "Hello", timestamp := 1, isStreaming := some false }],
        chatInput := "", isAiTyping := false, phase := .idle, fullText := "Hello" } ∧
    runChatFrom { chatMessages := [], chatInput := "hi", isAiTyping := false,
                  phase := .idle, fullText := "" } (sendSuccessSeq [] 0 1) =
      { chatMessages :=
          [{ role := .user, text := "hi", timestamp := 0, isStreaming := none },
           { role := .model, text := "", timestamp := 1, isStreaming := some false }],
        chatInput := "", isAiTyping := false, phase := .idle, fullText := "" } :=
  ⟨(sendMessage_chunks_concat _ ["Hel", "lo"] 0 1 rfl (by decide)).1,
   (sendMessage_chunks_concat _ [] 0 1 rfl (by decide)).1⟩

/-! ### C2: mid-stream transport error -/

/-- C2 counterexample: in the reachable state after typing hi, sending, and
a transport error following the chunk Hel, the streaming assistant message
is not finalized: it still carries streaming on and its accumulated text,
while the fixed fallback text arrives as a separate appended message (the
busy flag is cleared, so only the finalization half of the claim fails). -/
theorem sendMessage_error_counterexample :
    (runChat errorTrace2).chatMessages =
      [{ role := .user, text := "hi", timestamp := 0, isStreaming := none },
       { role := .model, text := "Hel", timestamp := 1, isStreaming := some true },
       { role := .model, text := fallbackText, timestamp := 2, isStreaming := none }] ∧
    (runChat errorTrace2).isAiTyping = false := by
  decide

/-- C2 amended: on a transport error mid-stream the catch block appends a
new assistant message carrying the fixed fallback text (with no streaming
field), the previously streaming assistant message keeps its accumulated
text and its streaming flag still on, and the busy flag is cleared so a
retry is permitted. -/
theorem sendMessage_midstream_error (s : ChatState) (cs : List String) (n1 n2 n3 : Nat)
    (h1 : s.isAiTyping = false) (h2 : jsTrim s.chatInput ≠ "") :
    runChatFrom s (sendErrorSeq cs n1 n2 n3) =
      { chatMessages := s.chatMessages ++
          [{ role := .user, text := s.chatInput, timestamp := n1, isStreaming := none },
           { role := .model, text := joinChunks cs, timestamp := n2, isStreaming := some true },
           { role := .model, text := fallbackText, timestamp := n3, isStreaming := none }],
        chatInput := "", isAiTyping := false, phase := .idle, fullText := joinChunks cs } := by
  have hopen := send_open s n1 n2 h1 h2
  have hsplit : runChatFrom s (sendErrorSeq cs n1 n2 n3)
      = chatStep (runChatFrom (chatStep (chatStep s (.callSend n1)) (.streamOpened n2))
          (cs.map CEvent.chunkArrive)) (.transportError n3) := by
    simp [sendErrorSeq, runChatFrom, List.foldl_append]
  rw [hsplit, hopen, chunks_fold, error_step]
  simp [strEmpty_append]

/-- Witness for C2's amended statement: one chunk, then an error. -/
theorem sendMessage_midstream_error_witness :
    runChatFrom { chatMessages := [], chatInput := "hi", isAiTyping := false,
                  phase := .idle, fullText := "" } (sendErrorSeq ["Hel"] 0 1 2) =
      { chatMessages :=
          [{ role := .user, text := "hi", timestamp := 0, isStreaming := none },
           { role := .model, text := "Hel", timestamp := 1, isStreaming := some true },
           { role := .model, text := fallbackText, timestamp := 2, isStreaming := none }],
        chatInput := "", isAiTyping := false, phase := .idle, fullText := "Hel" } :=
  sendMessage_midstream_error _ ["Hel"] 0 1 2 rfl (by decide)

/-! ### C3: streaming invariant -/

/-- C3 counterexample: the state reached by typing hi, sending, receiving
the chunk He and then a transport error violates the invariant — the
streaming placeholder keeps streaming on while the appended fallback
message sits after it, so a streaming message is not the last element. -/
theorem streaming_invariant_counterexample :
    streamingInvariant (runChat errorTrace).chatMessages = false := by
  decide

/-- Helper for C3: the invariant at an idle-phase state is exactly the
absence of streaming messages. -/
theorem chatInv_mk_idle (ms : List ChatMessage) (i : String) (ty : Bool) (t : String)
    (hns : noStreaming ms) :
    ChatInv { chatMessages := ms, chatInput := i, isAiTyping := ty, phase := .idle,
              fullText := t } := hns

/-- Helper for C3: the invariant at an opening-phase busy state is the
absence of streaming messages. -/
theorem chatInv_mk_opening (ms : List ChatMessage) (i : String) (t : String)
    (hns : noStreaming ms) :
    ChatInv { chatMessages := ms, chatInput := i, isAiTyping := true, phase := .opening,
              fullText := t } := ⟨rfl, hns⟩

/-- Helper for C3: the invariant at a streaming-phase busy state whose log
ends with the placeholder carrying the accumulator. -/
theorem chatInv_mk_streaming (ms : List ChatMessage) (i : String) (t : String) (n : Nat)
    (hns : noStreaming ms) :
    ChatInv { chatMessages := ms ++
                [{ role := .model, text := t, timestamp := n, isStreaming := some true }],
              chatInput := i, isAiTyping := true, phase := .streaming, fullText := t } :=
  ⟨rfl, ms, n, rfl, hns⟩

/-- Helper for C3: one safe event preserves the inductive invariant. -/
theorem chatStep_inv (s : ChatState) (e : CEvent) (hinv : ChatInv s)
    (hsafe : (match e, s.phase with
              | CEvent.transportError _, Phase.streaming => false
              | _, _ => true) = true) :
    ChatInv (chatStep s e) := by
  cases e with
  | setInput t =>
    cases hp : s.phase with
    | idle =>
      have h : noStreaming s.chatMessages := by simpa [ChatInv, hp] using hinv
      simpa [ChatInv, chatStep, hp] using h
    | opening =>
      have h : s.isAiTyping = true ∧ noStreaming s.chatMessages := by
        simpa [ChatInv, hp] using hinv
      simpa [ChatInv, chatStep, hp] using h
    | streaming =>
      have h := (by simpa [ChatInv, hp] using hinv :
        s.isAiTyping = true ∧ ∃ ms n, s.chatMessages = ms ++
          [{ role := .model, text := s.fullText, timestamp := n, isStreaming := some true }] ∧
          noStreaming ms)
      simpa [ChatInv, chatStep, hp] using h
  | callSend now =>
    by_cases hg : jsTrim s.chatInput = "" ∨ s.isAiTyping
    · simpa [chatStep, hg] using hinv
    · have hty : s.isAiTyping = false := by
        rcases not_or.mp hg with ⟨_, hb⟩
        exact Bool.not_eq_true _ |>.mp hb
      cases hp : s.phase with
      | idle =>
        have hns : noStreaming s.chatMessages := by simpa [ChatInv, hp] using hinv
        simp only [chatStep, if_neg hg]
        refine chatInv_mk_opening _ _ _ ?_
        intro m hm
        rcases List.mem_append.mp hm with h | h
        · exact hns m h
        · simp only [List.mem_singleton] at h
          subst h
          simp
      | opening =>
        have h : s.isAiTyping = true ∧ noStreaming s.chatMessages := by
          simpa [ChatInv, hp] using hinv
        rw [h.1] at hty
        cases hty
      | streaming =>
        have h := (by simpa [ChatInv, hp] using hinv :
          s.isAiTyping = true ∧ ∃ ms n, s.chatMessages = ms ++
            [{ role := .model, text := s.fullText, timestamp := n, isStreaming := some true }] ∧
            noStreaming ms)
        rw [h.1] at hty
        cases hty
  | streamOpened now =>
    by_cases hp : s.phase = .opening
    · have h : s.isAiTyping = true ∧ noStreaming s.chatMessages := by
        simpa [ChatInv, hp] using hinv
      simp only [chatStep, if_pos hp]
      exact ⟨h.1, s.chatMessages, now, rfl, h.2⟩
    · cases hq : s.phase with
      | idle =>
        have h : noStreaming s.chatMessages := by simpa [ChatInv, hq] using hinv
        simpa [ChatInv, chatStep, hp, hq] using h
      | opening => exact absurd hq hp
      | streaming =>
        have h := (by simpa [ChatInv, hq] using hinv :
          s.isAiTyping = true ∧ ∃ ms n, s.chatMessages = ms ++
            [{ role := .model, text := s.fullText, timestamp := n, isStreaming := some true }] ∧
            noStreaming ms)
        simpa [ChatInv, chatStep, hp, hq] using h
  | chunkArrive t =>
    by_cases hp : s.phase = .streaming
    · have h := (by simpa [ChatInv, hp] using hinv :
        s.isAiTyping = true ∧ ∃ ms n, s.chatMessages = ms ++
          [{ role := .model, text := s.fullText, timestamp := n, isStreaming := some true }] ∧
          noStreaming ms)
      obtain ⟨hty, ms, n, hmsgs, hns⟩ := h
      simp only [chatStep, if_pos hp]
      rw [hp, hty, hmsgs, mapLast_concat]
      exact chatInv_mk_streaming ms s.chatInput (s.fullText ++ t) n hns
    · cases hq : s.phase with
      | idle =>
        have h : noStreaming s.chatMessages := by simpa [ChatInv, hq] using hinv
        simpa [ChatInv, chatStep, hp, hq] using h
      | opening =>
        have h : s.isAiTyping = true ∧ noStreaming s.chatMessages := by
          simpa [ChatInv, hq] using hinv
        simpa [ChatInv, chatStep, hp, hq] using h
      | streaming => exact absurd hq hp
  | streamComplete =>
    by_cases hp : s.phase = .streaming
    · have h := (by simpa [ChatInv, hp] using hinv :
        s.isAiTyping = true ∧ ∃ ms n, s.chatMessages = ms ++
          [{ role := .model, text := s.fullText, timestamp := n, isStreaming := some true }] ∧
          noStreaming ms)
      obtain ⟨hty, ms, n, hmsgs, hns⟩ := h
      simp only [chatStep, if_pos hp]
      refine chatInv_mk_idle _ _ _ _ ?_
      intro m hm
      rw [hmsgs, mapLast_concat] at hm
      rcases List.mem_append.mp hm with h | h
      · exact hns m h
      · simp only [List.mem_singleton] at h
        subst h
        simp
    · cases hq : s.phase with
      | idle =>
        have h : noStreaming s.chatMessages := by simpa [ChatInv, hq] using hinv
        simpa [ChatInv, chatStep, hp, hq] using h
      | opening =>
        have h : s.isAiTyping = true ∧ noStreaming s.chatMessages := by
          simpa [ChatInv, hq] using hinv
        simpa [ChatInv, chatStep, hp, hq] using h
      | streaming => exact absurd hq hp
  | transportError now =>
    cases hp : s.phase with
    | idle =>
      have h : noStreaming s.chatMessages := by simpa [ChatInv, hp] using hinv
      simpa [ChatInv, chatStep, hp] using h
    | streaming =>
      rw [hp] at hsafe
      cases hsafe
    | opening =>
      have h : s.isAiTyping = true ∧ noStreaming s.chatMessages := by
        simpa [ChatInv, hp] using hinv
      have hne : ¬ s.phase = Phase.idle := by rw [hp]; decide
      simp only [chatStep, if_neg hne]
      refine chatInv_mk_idle _ _ _ _ ?_
      intro m hm
      rcases List.mem_append.mp hm with hmem | hmem
      · exact h.2 m hmem
      · simp only [List.mem_singleton] at hmem
        subst hmem
        simp

/-- Helper for C3: the inductive invariant is preserved along any sequence
of events with no mid-stream transport error. -/
theorem runChat_inv :
    ∀ (evs : List CEvent) (s : ChatState), ChatInv s → midStreamSafe s evs = true →
      ChatInv (runChatFrom s evs)
  | [], _, hinv, _ => hinv
  | e :: es, s, hinv, hsafe => by
    rcases Bool.and_eq_true _ _ |>.mp hsafe with ⟨h1, h2⟩
    exact runChat_inv es (chatStep s e) (chatStep_inv s e hinv h1) h2

/-- Helper for C3: the inductive invariant entails the decidable statement
of the streaming invariant. -/
theorem chatInv_streamingInvariant (s : ChatState) (h : ChatInv s) :
    streamingInvariant s.chatMessages = true := by
  rw [streamingInvariant, List.all_eq_true]
  intro m hm
  rw [bne_iff_ne]
  cases hp : s.phase with
  | idle =>
    have hns : noStreaming s.chatMessages := by simpa [ChatInv, hp] using h
    exact hns m ((List.dropLast_sublist s.chatMessages).subset hm)
  | opening =>
    have hns : s.isAiTyping = true ∧ noStreaming s.chatMessages := by
      simpa [ChatInv, hp] using h
    exact hns.2 m ((List.dropLast_sublist s.chatMessages).subset hm)
  | streaming =>
    have hstr := (by simpa [ChatInv, hp] using h :
      s.isAiTyping = true ∧ ∃ ms n, s.chatMessages = ms ++
        [{ role := .model, text := s.fullText, timestamp := n, isStreaming := some true }] ∧
        noStreaming ms)
    obtain ⟨_, ms, n, hmsgs, hns⟩ := hstr
    rw [hmsgs, List.dropLast_concat] at hm
    exact hns m hm

/-- C3 amended: in every state reachable from the initial chat state by
send, chunk arrival, stream completion and pre-stream transport errors —
that is, by any event sequence in which the transport does not error while
a chunk stream is open — at most one message of the log has streaming on,
and when one does it is the last element.  A mid-stream transport error
breaks the invariant (see the counterexample): the erroring exchange leaves
its placeholder streaming while appending the fallback message after it. -/
theorem chat_streaming_invariant (evs : List CEvent)
    (h : midStreamSafe chatInit evs = true) :
    streamingInvariant (runChat evs).chatMessages = true :=
  chatInv_streamingInvariant _
    (runChat_inv evs chatInit (fun m hm => absurd hm (List.not_mem_nil m)) h)

/-- Witness for C3: a complete successful exchange keeps the invariant. -/
theorem chat_streaming_invariant_witness :
    streamingInvariant (runChat [CEvent.setInput "hi", CEvent.callSend 0,
      CEvent.streamOpened 1, CEvent.chunkArrive "He", CEvent.streamComplete]).chatMessages
      = true :=
  chat_streaming_invariant _ (by decide)

/-! ### C8: table view-model -/

/-- C8: the derived table is a pure function of the country collection,
search text, sort key and order: it filters by case-insensitive substring
match on the country name preserving relative order (the filter step is a
sublist of the input characterized exactly by the match predicate), sorts
the filtered rows by the chosen numeric field in the chosen direction (the
sort is a permutation of the filtered rows and the output is sorted), and
caps the result at 100 rows; toggleSort flips the direction when invoked
with the already-active key and otherwise selects the new key with
descending direction, touching neither the collection nor the search text,
so the filtered set is unaltered. -/
theorem filteredAndSortedCountries_spec :
    (∀ (cs : List CountryData) (q : String) (k : SortKey) (o : SortOrder),
      (filteredAndSortedCountries cs q k o).length ≤ 100 ∧
      List.Sorted (sortRel k o) (filteredAndSortedCountries cs q k o) ∧
      (∀ c ∈ filteredAndSortedCountries cs q k o, c ∈ cs ∧ matchesSearch q c = true) ∧
      List.Sublist (cs.filter (matchesSearch q)) cs ∧
      (∀ c, c ∈ cs.filter (matchesSearch q) ↔ c ∈ cs ∧ matchesSearch q c = true) ∧
      List.Perm (List.insertionSort (sortRel k o) (cs.filter (matchesSearch q)))
        (cs.filter (matchesSearch q))) ∧
    (∀ (vs : ViewState) (key : SortKey),
      (toggleSort key vs).countries = vs.countries ∧
      (toggleSort key vs).searchTerm = vs.searchTerm ∧
      (vs.sortKey = key → toggleSort key vs =
        { vs with sortOrder := if vs.sortOrder = .desc then .asc else .desc }) ∧
      (vs.sortKey ≠ key → toggleSort key vs =
        { vs with sortKey := key, sortOrder := .desc }) ∧
      (toggleSort key vs).countries.filter (matchesSearch (toggleSort key vs).searchTerm)
        = vs.countries.filter (matchesSearch vs.searchTerm)) := by
  constructor
  · intro cs q k o
    haveI htot : IsTotal CountryData (sortRel k o) := ⟨by
      intro a b
      cases o <;> simp [sortRel, countryLe, decide_eq_true_eq] <;> omega⟩
    haveI htrans : IsTrans CountryData (sortRel k o) := ⟨by
      intro a b c
      cases o <;> simp [sortRel, countryLe, decide_eq_true_eq] <;> omega⟩
    refine ⟨List.length_take_le _ _, ?_, ?_, List.filter_sublist _,
      fun c => List.mem_filter, List.perm_insertionSort _ _⟩
    · exact (List.sorted_insertionSort _ _).sublist (List.take_sublist _ _)
    · intro c hc
      exact List.mem_filter.mp
        ((List.mem_insertionSort _).mp (List.take_subset _ _ hc))
  · intro vs key
    by_cases h : vs.sortKey = key
    · exact ⟨by simp [toggleSort, h], by simp [toggleSort, h], fun _ => by simp [toggleSort, h],
        fun hne => absurd h hne, by simp [toggleSort, h]⟩
    · exact ⟨by simp [toggleSort, h], by simp [toggleSort, h], fun heq => absurd heq h,
        fun _ => by simp [toggleSort, h], by simp [toggleSort, h]⟩

/-- Witness for C8: the filter of the claim keeps France and Francistan in
original order and drops Germany; sorting by cases ascending and descending
produce mutually reversed row orders over the same filtered set, and the
cap bound holds. -/
theorem filteredAndSortedCountries_spec_witness :
    (filteredAndSortedCountries demoCountries "fra" SortKey.cases SortOrder.asc).length ≤ 100 ∧
    (demoCountries.filter (matchesSearch "fra")).map CountryData.country
      = ["France", "Francistan"] ∧
    (filteredAndSortedCountries demoCountries "fra" SortKey.cases SortOrder.asc).map
      CountryData.country = ["Francistan", "France"] ∧
    (filteredAndSortedCountries demoCountries "fra" SortKey.cases SortOrder.desc).map
      CountryData.country = ["France", "Francistan"] :=
  ⟨(filteredAndSortedCountries_spec.1 demoCountries "fra" SortKey.cases SortOrder.asc).1,
   by decide, by decide, by decide⟩
